import Mathlib

/-!
Verification of the Schnorr signing / replay-protection design of
`fairway-global/schnorr_internal`.

The repository ships the simulator wrappers and tests
(`src/test/schnorr-simulator.ts` and variants, `src/test/schnorr.test.ts`);
the Compact contract circuits themselves (`derive_pk`, `sign`,
`verify_signature`, `subject_hash`) live in the generated
`managed/schnorr/contract/index.cjs`, which is not part of the sources.
Those circuits are therefore modelled from the specification (sections 4.1
to 4.7), and the wrapper-level definitions are translated directly from the
TypeScript sources.

Bytes are modelled as lists of naturals; scalars and curve points as
elements of `ZMod n` for the curve order `n` (the curve group is modelled
as the abstract cyclic group generated by `G`, since the concrete curve is
not in the sources and no claim concerns point coordinates). The challenge
hash, the ephemeral-scalar derivation and the credential-subject hash are
arbitrary deterministic functions, bundled in `Params`.
-/

namespace Schnorr

/-- Big-endian interpretation of a byte list as a natural number, as used
to read a 32-byte secret key as a scalar. -/
def bytesToNat (l : List ℕ) : ℕ :=
  l.foldl (fun a b => 256 * a + b) 0

/-- Translated from `SchnorrSimulator.stringToBytes32`
(`src/test/schnorr-simulator.ts`, lines 262-267): a zero-filled 32-byte
buffer whose first `min (length input) 32` bytes are overwritten with the
input's bytes. -/
def stringToBytes32 (s : List ℕ) : List ℕ :=
  s.take 32 ++ List.replicate (32 - (s.take 32).length) 0

/-- CredentialSubject record (`src/test/schnorr-simulator.ts`,
`createCredentialSubject`): four 32-byte fields and a bigint timestamp. -/
structure CredentialSubject where
  id : List ℕ
  first_name : List ℕ
  last_name : List ℕ
  national_identifier : List ℕ
  birth_timestamp : ℤ
deriving DecidableEq

/-- Signature record of the ledger-based variant:
`{ pk : CurvePoint, R : CurvePoint, s : Scalar, nonce : NonceValue }`
(spec section 3; `Signature` of `managed/schnorr/contract`). -/
structure Sig (n : ℕ) where
  pk : ZMod n
  R : ZMod n
  s : ZMod n
  nonce : ℕ
deriving DecidableEq

/-- Signature record of the `part_002` variant (`SchnorrSignature`,
`src/unnamed/part_002`): no nonce field. -/
structure Sig2 (n : ℕ) where
  pk : ZMod n
  R : ZMod n
  s : ZMod n
deriving DecidableEq

/-- SignedCredentialSubject as built by `signCredentialSubject`
(`src/test/schnorr-simulator.ts`, lines 188-192): the subject, the
signature, and the signature's nonce copied out. -/
structure SignedCredentialSubject (n : ℕ) where
  subject : CredentialSubject
  signature : Sig n
  nonce : ℕ
deriving DecidableEq

/-- Modelled from the spec (section 3): Nonce Registry state, a counter of
the next nonce to issue and the set (here: list) of consumed nonces. -/
structure RegState where
  nextNonce : ℕ
  consumed : List ℕ
deriving DecidableEq

/-- Error raised at key-derivation or signing time (spec section 7). -/
inductive SignError where
  | invalidKey
deriving DecidableEq

/-- Failure modes of the throwing circuit-level verifier: the Schnorr
equation does not hold, or the signature's nonce was already consumed. -/
inductive VerifyError where
  | badEquation
  | nonceConsumed
deriving DecidableEq

/-- Deterministic functions the circuits are parametrised by: the base
point `g`, the Fiat-Shamir challenge hash, the ephemeral-scalar derivation
from `(sk, nonceValue)`, and the credential-subject hash (spec sections
4.1, 4.3, 4.5, 4.7); their concrete definitions are inside the generated
contract, not in the sources. -/
structure Params (n : ℕ) where
  g : ZMod n
  challenge : ZMod n → ZMod n → List ℕ → ZMod n
  kdf : ℕ → ℕ → ZMod n
  subjectHash : CredentialSubject → List ℕ
  subjectHash_len : ∀ c, (subjectHash c).length = 32

variable {n : ℕ}

/-- Modelled from the spec (section 4.1, circuit `derive_pk` of the
generated contract): `sk * G`, failing with `InvalidKey` if `sk = 0` or
`sk >= curveOrder`. -/
def derive_pk (P : Params n) (sk : ℕ) : Except SignError (ZMod n) :=
  if sk = 0 ∨ n ≤ sk then .error .invalidKey
  else .ok ((sk : ZMod n) * P.g)

/-- Modelled from the spec (section 4.4): `issue()` atomically returns
`nextNonce`, then increments it. -/
def issue (st : RegState) : ℕ × RegState :=
  (st.nextNonce, ⟨st.nextNonce + 1, st.consumed⟩)

/-- Modelled from the spec (section 4.4): `tryConsume(v)` checks
`v ∉ consumed`; if so inserts `v` and returns true, otherwise returns
false without mutating. -/
def tryConsume (v : ℕ) (st : RegState) : Bool × RegState :=
  if v ∈ st.consumed then (false, st)
  else (true, ⟨st.nextNonce, v :: st.consumed⟩)

/-- Modelled from the spec (section 4.5, circuit `sign` of the generated
contract): validate the key, issue a fresh nonce, derive the ephemeral
scalar, and return `{ pk, R, s, nonce }` together with the advanced
registry state. -/
def sign (P : Params n) (msg : List ℕ) (sk : ℕ) (st : RegState) :
    Except SignError (Sig n × RegState) :=
  if sk = 0 ∨ n ≤ sk then .error .invalidKey
  else
    let pk : ZMod n := (sk : ZMod n) * P.g
    let nv := (issue st).1
    let st1 := (issue st).2
    let k := P.kdf sk nv
    let R := k * P.g
    let e := P.challenge R pk msg
    let s := k + e * (sk : ZMod n)
    .ok (⟨pk, R, s, nv⟩, st1)

/-- The Schnorr verification equation `s * G = R + e * pk` with the
challenge recomputed from `(R, pk, msg)` (spec section 4.6, steps 1-2). -/
def schnorrHolds (P : Params n) (msg : List ℕ) (sig : Sig n) : Bool :=
  decide (sig.s * P.g = sig.R + P.challenge sig.R sig.pk msg * sig.pk)

/-- The same equation for the nonce-free `part_002` signature record. -/
def schnorrHolds2 (P : Params n) (msg : List ℕ) (sig : Sig2 n) : Bool :=
  decide (sig.s * P.g = sig.R + P.challenge sig.R sig.pk msg * sig.pk)

/-- Modelled from the spec (section 4.6, circuit `verify_signature` of the
generated contract): check the equation, then `tryConsume` the nonce; the
circuit throws (here: returns an error) on either failure, and on success
returns the updated registry state. -/
def verify_signature (P : Params n) (msg : List ℕ) (sig : Sig n)
    (st : RegState) : Except VerifyError RegState :=
  if schnorrHolds P msg sig then
    if (tryConsume sig.nonce st).1 then .ok (tryConsume sig.nonce st).2
    else .error .nonceConsumed
  else .error .badEquation

/-- Modelled from the spec: the stateless `pureCircuits.verify_signature`
used by the `part_002` variant, which throws exactly when the Schnorr
equation fails. -/
def pureVerify (P : Params n) (msg : List ℕ) (sig : Sig2 n) :
    Except VerifyError Unit :=
  if schnorrHolds2 P msg sig then .ok () else .error .badEquation

/-- Translated from `SchnorrSimulator.signMessage`
(`src/test/schnorr-simulator.ts`, lines 88-114): encode the message to 32
bytes and run the `sign` circuit against the shared ledger state. -/
def signMessage (P : Params n) (message : List ℕ) (sk : ℕ)
    (st : RegState) : Except SignError (Sig n × RegState) :=
  sign P (stringToBytes32 message) sk st

/-- Translated from `SchnorrSimulator.verifySignature`
(`src/test/schnorr-simulator.ts`, lines 116-137): encode the message, run
the `verify_signature` circuit, return `true` and adopt the new ledger
state on success, and catch any circuit error as `false` with the ledger
state untouched. -/
def verifySignature (P : Params n) (message : List ℕ) (sig : Sig n)
    (st : RegState) : Bool × RegState :=
  match verify_signature P (stringToBytes32 message) sig st with
  | .ok st1 => (true, st1)
  | .error _ => (false, st)

/-- Translated from `SchnorrSimulator.hashCredentialSubject`
(`src/test/schnorr-simulator.ts`, lines 156-161): the `subject_hash`
circuit applied to the record. -/
def hashCredentialSubject (P : Params n) (c : CredentialSubject) :
    List ℕ :=
  P.subjectHash c

/-- Translated from `SchnorrSimulator.signCredentialSubject`
(`src/test/schnorr-simulator.ts`, lines 163-193): hash the subject, run
the `sign` circuit on the digest, and package subject, signature and the
signature's nonce. -/
def signCredentialSubject (P : Params n) (c : CredentialSubject) (sk : ℕ)
    (st : RegState) :
    Except SignError (SignedCredentialSubject n × RegState) :=
  match sign P (hashCredentialSubject P c) sk st with
  | .error e => .error e
  | .ok (s, st1) => .ok (⟨c, s, s.nonce⟩, st1)

/-- Translated from `SchnorrSimulator.verifySignedCredential`
(`src/test/schnorr-simulator.ts`, lines 195-216): hash the stored subject,
run `verify_signature` on the digest and the stored signature, catching
any circuit error as `false`. -/
def verifySignedCredential (P : Params n) (sc : SignedCredentialSubject n)
    (st : RegState) : Bool × RegState :=
  match verify_signature P (hashCredentialSubject P sc.subject)
      sc.signature st with
  | .ok st1 => (true, st1)
  | .error _ => (false, st)

/-- Translated from `SchnorrSimulator.verifySignatureWithPublicKey`
(`src/test/schnorr-simulator.ts`, lines 239-259): replace the signature's
embedded `pk` by the explicit argument, verify, and catch errors; this
wrapper does not adopt the new ledger state. -/
def verifySignatureWithPublicKey (P : Params n) (message : List ℕ)
    (sig : Sig n) (publicKey : ZMod n) (st : RegState) : Bool :=
  match verify_signature P (stringToBytes32 message)
      ⟨publicKey, sig.R, sig.s, sig.nonce⟩ st with
  | .ok _ => true
  | .error _ => false

/-- Translated from `SchnorrSimulator.verifySignedCredentialWithPublicKey`
(`src/test/schnorr-simulator.ts`, lines 218-237): same replacement for a
signed credential. -/
def verifySignedCredentialWithPublicKey (P : Params n)
    (sc : SignedCredentialSubject n) (publicKey : ZMod n)
    (st : RegState) : Bool :=
  match verify_signature P (hashCredentialSubject P sc.subject)
      ⟨publicKey, sc.signature.R, sc.signature.s, sc.signature.nonce⟩
      st with
  | .ok _ => true
  | .error _ => false

/-- Translated from `SchnorrSimulator.verifySignature` of the `part_002`
variant (`src/unnamed/part_002`, lines 98-124): derive the simulator's own
public key, reject when the signature's embedded `pk` differs from it, and
otherwise run the stateless verification circuit, catching errors as
`false`. -/
def part002VerifySignature (P : Params n) (privateKey : ℕ)
    (message : List ℕ) (sig : Sig2 n) : Bool :=
  match derive_pk P privateKey with
  | .error _ => false
  | .ok myPk =>
    if sig.pk ≠ myPk then false
    else
      match pureVerify P (stringToBytes32 message) sig with
      | .ok _ => true
      | .error _ => false

/-- ASCII code of the lowercase hex digit of a value below 16, as
produced by `Buffer.toString` with base 16. -/
def hexDigitByte (x : ℕ) : ℕ :=
  if x < 10 then 48 + x else 87 + x

/-- ASCII bytes of the lowercase hex rendering of a byte list
(`Buffer.from(bytes).toString` in base 16): two hex digits per byte. -/
def bytesToHexAscii (l : List ℕ) : List ℕ :=
  (l.map fun b => [hexDigitByte (b / 16), hexDigitByte (b % 16)]).flatten

/-- The `slice(0, 64).padEnd(64, ...)` mangling applied to the hex
rendering in the `part_002` `signCredentialSubject`: the first 64 hex
characters, right-padded with ASCII `0` (code 48) to 64 characters. -/
def hex64 (l : List ℕ) : List ℕ :=
  (bytesToHexAscii l).take 64 ++
    List.replicate (64 - ((bytesToHexAscii l).take 64).length) 48

/-- Translated from `SchnorrSimulator.signCredentialSubject` of the
`part_002` variant (`src/unnamed/part_002`, lines 466-490): hash the
subject, call `signMessage` on the hex-string rendering of the digest
(the returned signature is discarded, but the ledger state advances),
then run the `sign` circuit a second time on the raw digest and package
its result. Either circuit failure propagates uncaught. -/
def part002SignCredentialSubject (P : Params n) (c : CredentialSubject)
    (sk : ℕ) (st : RegState) :
    Except SignError (SignedCredentialSubject n × RegState) :=
  match signMessage P (hex64 (hashCredentialSubject P c)) sk st with
  | .error e => .error e
  | .ok (_, st1) =>
    match sign P (hashCredentialSubject P c) sk st1 with
    | .error e => .error e
    | .ok (s2, st2) => .ok (⟨c, s2, s2.nonce⟩, st2)

/-- Stated from the spec's words (section 4.7, for comparison with the
source definition): `signCredential` is the thin composition that hashes
the subject and calls the Signer's `sign` on the digest. -/
def specSignCredential (P : Params n) (c : CredentialSubject) (sk : ℕ)
    (st : RegState) :
    Except SignError (SignedCredentialSubject n × RegState) :=
  (sign P (P.subjectHash c) sk st).map
    (fun p => (⟨c, p.1, p.1.nonce⟩, p.2))

/-- Operations a caller can perform against the shared registry: a
simulator `signMessage` or a simulator `verifySignature`. -/
inductive Op (n : ℕ) where
  | signOp (msg : List ℕ) (sk : ℕ)
  | verifyOp (msg : List ℕ) (sig : Sig n)

/-- Registry state after one operation: a failed sign leaves the state
unchanged (the circuit throws before mutating), a verify yields the state
component of `verifySignature`. -/
def stepState (P : Params n) (st : RegState) : Op n → RegState
  | .signOp msg sk =>
    match signMessage P msg sk st with
    | .ok (_, st1) => st1
    | .error _ => st
  | .verifyOp msg sig => (verifySignature P msg sig st).2

/-- Registry state after a sequence of operations. -/
def applyOps (P : Params n) : List (Op n) → RegState → RegState
  | [], st => st
  | op :: ops, st => applyOps P ops (stepState P st op)

/-- The nonces carried by the signatures that the successful sign
operations of a trace return, in order. -/
def signedNonces (P : Params n) : List (Op n) → RegState → List ℕ
  | [], _ => []
  | .signOp msg sk :: ops, st =>
    match signMessage P msg sk st with
    | .ok (sig, st1) => sig.nonce :: signedNonces P ops st1
    | .error _ => signedNonces P ops st
  | .verifyOp msg sig :: ops, st =>
    signedNonces P ops (verifySignature P msg sig st).2

/-- Registry state at system initialization: `nextNonce = 0`, nothing
consumed (spec section 3). -/
def initState : RegState := ⟨0, []⟩

/-- Concrete parameter instance used by the witnesses: curve order 5,
base point 1, challenge adding the two points, ephemeral scalar adding key
and nonce, subject hash encoding the id field. -/
def Pc : Params 5 :=
  ⟨1, fun r p _ => r + p, fun a b => ((a + b : ℕ) : ZMod 5),
    fun c => stringToBytes32 c.id,
    fun c => by
      unfold stringToBytes32
      rw [List.length_append, List.length_replicate, List.length_take]
      omega⟩

/-- The encoder returns exactly 32 bytes on every input. -/
theorem stringToBytes32_length (s : List ℕ) :
    (stringToBytes32 s).length = 32 := by
  unfold stringToBytes32
  rw [List.length_append, List.length_replicate, List.length_take]
  omega

/-- Encoding a list that is already exactly 32 bytes long changes
nothing. -/
theorem stringToBytes32_of_length_eq (s : List ℕ) (h : s.length = 32) :
    stringToBytes32 s = s := by
  unfold stringToBytes32
  rw [List.take_of_length_le (le_of_eq h), h]
  simp

/-- Unfolding of a successful `sign`: the produced signature's fields and
the advanced registry state. -/
theorem sign_ok_elim {P : Params n} {msg : List ℕ} {sk : ℕ}
    {st : RegState} {sig : Sig n} {st1 : RegState}
    (h : sign P msg sk st = .ok (sig, st1)) :
    ¬(sk = 0 ∨ n ≤ sk) ∧
    sig.pk = (sk : ZMod n) * P.g ∧
    sig.R = P.kdf sk st.nextNonce * P.g ∧
    sig.s = P.kdf sk st.nextNonce +
      P.challenge (P.kdf sk st.nextNonce * P.g) ((sk : ZMod n) * P.g)
        msg * (sk : ZMod n) ∧
    sig.nonce = st.nextNonce ∧
    st1 = ⟨st.nextNonce + 1, st.consumed⟩ := by
  unfold sign issue at h
  by_cases hk : sk = 0 ∨ n ≤ sk
  · rw [if_pos hk] at h
    exact absurd h (by simp)
  · rw [if_neg hk] at h
    simp only [Except.ok.injEq, Prod.mk.injEq] at h
    obtain ⟨h1, h2⟩ := h
    exact ⟨hk, by rw [← h1], by rw [← h1], by rw [← h1], by rw [← h1],
      h2.symm⟩

/-- Completeness of the Schnorr equation: a signature produced by `sign`
satisfies the recomputed verification equation. -/
theorem schnorrHolds_of_sign {P : Params n} {msg : List ℕ} {sk : ℕ}
    {st : RegState} {sig : Sig n} {st1 : RegState}
    (h : sign P msg sk st = .ok (sig, st1)) :
    schnorrHolds P msg sig = true := by
  obtain ⟨-, hpk, hR, hs, -, -⟩ := sign_ok_elim h
  unfold schnorrHolds
  rw [decide_eq_true_eq, hpk, hR, hs]
  ring

/-- Characterisation of the simulator verifier: it returns `true` exactly
when the Schnorr equation holds on the encoded message and the nonce is
still unconsumed. -/
theorem verifySignature_true_iff (P : Params n) (m : List ℕ) (sig : Sig n)
    (st : RegState) :
    (verifySignature P m sig st).1 = true ↔
      (schnorrHolds P (stringToBytes32 m) sig = true ∧
        sig.nonce ∉ st.consumed) := by
  unfold verifySignature verify_signature tryConsume
  by_cases h1 : schnorrHolds P (stringToBytes32 m) sig = true
  · by_cases h2 : sig.nonce ∈ st.consumed
    · simp [h1, h2]
    · simp [h1, h2]
  · simp [h1]

/-- The registry state after a simulator verification is either untouched
or extended by the signature's nonce. -/
theorem verifySignature_snd_cases (P : Params n) (m : List ℕ)
    (sig : Sig n) (st : RegState) :
    (verifySignature P m sig st).2 = st ∨
    (verifySignature P m sig st).2 =
      ⟨st.nextNonce, sig.nonce :: st.consumed⟩ := by
  unfold verifySignature verify_signature tryConsume
  by_cases h1 : schnorrHolds P (stringToBytes32 m) sig = true
  · by_cases h2 : sig.nonce ∈ st.consumed
    · simp [h1, h2]
    · simp [h1, h2]
  · simp [h1]

/-- Verification never changes the issuance counter. -/
theorem verifySignature_snd_nextNonce (P : Params n) (m : List ℕ)
    (sig : Sig n) (st : RegState) :
    (verifySignature P m sig st).2.nextNonce = st.nextNonce := by
  rcases verifySignature_snd_cases P m sig st with h | h <;> rw [h]

/-- Consumed nonces stay consumed across a verification. -/
theorem verifySignature_consumed_mono (P : Params n) (m : List ℕ)
    (sig : Sig n) (st : RegState) (v : ℕ) (hv : v ∈ st.consumed) :
    v ∈ (verifySignature P m sig st).2.consumed := by
  rcases verifySignature_snd_cases P m sig st with h | h <;> rw [h]
  · exact hv
  · exact List.mem_cons_of_mem _ hv

/-- A successful verification records the signature's nonce as
consumed. -/
theorem verifySignature_true_consumes (P : Params n) (m : List ℕ)
    (sig : Sig n) (st : RegState)
    (h : (verifySignature P m sig st).1 = true) :
    sig.nonce ∈ (verifySignature P m sig st).2.consumed := by
  unfold verifySignature verify_signature tryConsume at *
  by_cases h1 : schnorrHolds P (stringToBytes32 m) sig = true
  · by_cases h2 : sig.nonce ∈ st.consumed
    · simp [h1, h2] at h
    · simp [h1, h2, List.mem_cons]
  · simp [h1] at h

/-- A signature whose nonce is already consumed never verifies. -/
theorem verifySignature_false_of_consumed (P : Params n) (m : List ℕ)
    (sig : Sig n) (st : RegState) (h : sig.nonce ∈ st.consumed) :
    (verifySignature P m sig st).1 = false := by
  cases hb : (verifySignature P m sig st).1
  · rfl
  · exact absurd h ((verifySignature_true_iff P m sig st).mp hb).2

/-- One registry operation preserves membership in the consumed set. -/
theorem stepState_consumed_mono (P : Params n) (st : RegState) (op : Op n)
    (v : ℕ) (hv : v ∈ st.consumed) :
    v ∈ (stepState P st op).consumed := by
  cases op with
  | signOp msg sk =>
    simp only [stepState]
    cases h : signMessage P msg sk st with
    | error e => exact hv
    | ok p =>
      obtain ⟨sig, st1⟩ := p
      obtain ⟨-, -, -, -, -, hst⟩ := sign_ok_elim h
      show v ∈ st1.consumed
      rw [hst]
      exact hv
  | verifyOp msg sig =>
    exact verifySignature_consumed_mono P msg sig st v hv

/-- Any sequence of registry operations preserves membership in the
consumed set: `Consumed` is terminal. -/
theorem applyOps_consumed_mono (P : Params n) (ops : List (Op n))
    (st : RegState) (v : ℕ) (hv : v ∈ st.consumed) :
    v ∈ (applyOps P ops st).consumed := by
  induction ops generalizing st with
  | nil => exact hv
  | cons op ops ih => exact ih _ (stepState_consumed_mono P st op v hv)

/-- Helper for C7: from any state, the nonces handed out by the
successful sign operations of a trace are the consecutive integers
starting at the state's issuance counter. -/
theorem signedNonces_eq_range' (P : Params n) (ops : List (Op n))
    (st : RegState) :
    signedNonces P ops st =
      List.range' st.nextNonce (signedNonces P ops st).length := by
  induction ops generalizing st with
  | nil => rfl
  | cons op ops ih =>
    cases op with
    | signOp msg sk =>
      simp only [signedNonces]
      cases h : signMessage P msg sk st with
      | error e => exact ih st
      | ok p =>
        obtain ⟨sig, st1⟩ := p
        obtain ⟨-, -, -, -, hnv, hst⟩ := sign_ok_elim h
        subst hst
        have h1 := ih (⟨st.nextNonce + 1, st.consumed⟩ : RegState)
        show sig.nonce :: signedNonces P ops
            (⟨st.nextNonce + 1, st.consumed⟩ : RegState) =
          List.range' st.nextNonce
            (sig.nonce :: signedNonces P ops
              (⟨st.nextNonce + 1, st.consumed⟩ : RegState)).length
        rw [List.length_cons, List.range'_succ, hnv]
        exact congrArg (st.nextNonce :: ·) h1
    | verifyOp msg sig =>
      simp only [signedNonces]
      have h1 := ih (verifySignature P msg sig st).2
      rw [verifySignature_snd_nextNonce] at h1
      exact h1

/-- C1: for every message and valid secret key, verifying a signature
with the simulator immediately after `signMessage` produced it, from a
registry state whose next nonce is still fresh, returns `true` (spec
section 8; `src/test/schnorr.test.ts`, replay-prevention suite). -/
theorem sign_then_verify_true (P : Params n) (m : List ℕ) (sk : ℕ)
    (st : RegState) (sig : Sig n) (st1 : RegState)
    (hsign : signMessage P m sk st = .ok (sig, st1))
    (hfresh : st.nextNonce ∉ st.consumed) :
    (verifySignature P m sig st1).1 = true := by
  obtain ⟨-, -, -, -, hnv, hst⟩ := sign_ok_elim hsign
  rw [verifySignature_true_iff]
  refine ⟨schnorrHolds_of_sign hsign, ?_⟩
  rw [hnv, hst]
  exact hfresh

/-- Witness for C1 at a concrete instance: key 2, empty message, fresh
registry. -/
theorem sign_then_verify_true_witness :
    (verifySignature Pc [] ⟨2, 2, 0, 0⟩ ⟨1, []⟩).1 = true :=
  sign_then_verify_true Pc [] 2 ⟨0, []⟩ ⟨2, 2, 0, 0⟩ ⟨1, []⟩ rfl
    (by decide)

/-- C2: once a signature has verified `true`, every later verification
presenting the same signature returns `false`, whatever registry
operations ran in between and whatever message is offered: the consumed
state of its nonce is terminal. -/
theorem verified_signature_never_verifies_again (P : Params n)
    (m : List ℕ) (sig : Sig n) (st : RegState)
    (h : (verifySignature P m sig st).1 = true)
    (ops : List (Op n)) (m' : List ℕ) :
    (verifySignature P m' sig
      (applyOps P ops (verifySignature P m sig st).2)).1 = false :=
  verifySignature_false_of_consumed _ _ _ _
    (applyOps_consumed_mono _ _ _ _
      (verifySignature_true_consumes _ _ _ _ h))

/-- Witness for C2: a concrete signature verifies `true`, and after a
further sign operation the replay returns `false`. -/
theorem verified_signature_never_verifies_again_witness :
    (verifySignature Pc [] ⟨2, 3, 3, 0⟩
      (applyOps Pc [Op.signOp [] 2]
        (verifySignature Pc [] ⟨2, 3, 3, 0⟩ ⟨1, []⟩).2)).1 = false :=
  verified_signature_never_verifies_again Pc [] ⟨2, 3, 3, 0⟩ ⟨1, []⟩
    (by decide) [Op.signOp [] 2] []

/-- C3 counterexample: at a concrete input the Schnorr equation holds and
no nonce was ever consumed, yet the `part_002` simulator's
`verifySignature` returns `false`, because the signature's embedded
public key differs from the verifier's own derived key. -/
theorem part002_rejects_valid_foreign_signature :
    schnorrHolds2 Pc (stringToBytes32 []) ⟨2, 3, 3⟩ = true ∧
    part002VerifySignature Pc 1 [] ⟨2, 3, 3⟩ = false := by
  decide

/-- C3 (amended): the ledger-backed verifier returns `true` iff the
Schnorr equation holds for the challenge recomputed from the encoded
message and the signature's nonce is still unconsumed; the `part_002`
variant additionally requires the signature's embedded `pk` to equal the
verifier's own derived public key, so there the embedded key does affect
the result. -/
theorem verify_true_characterisation (P : Params n) (m : List ℕ)
    (sig : Sig n) (st : RegState) (sk : ℕ) (sig2 : Sig2 n) :
    ((verifySignature P m sig st).1 = true ↔
      (schnorrHolds P (stringToBytes32 m) sig = true ∧
        sig.nonce ∉ st.consumed)) ∧
    (part002VerifySignature P sk m sig2 = true ↔
      (derive_pk P sk = .ok sig2.pk ∧
        schnorrHolds2 P (stringToBytes32 m) sig2 = true)) := by
  constructor
  · exact verifySignature_true_iff P m sig st
  · unfold part002VerifySignature pureVerify derive_pk
    by_cases hk : sk = 0 ∨ n ≤ sk
    · simp [hk]
    · by_cases hpk : sig2.pk = (sk : ZMod n) * P.g
      · by_cases heq : schnorrHolds2 P (stringToBytes32 m) sig2 = true
        · simp [hk, hpk, heq]
        · simp [hk, hpk, heq]
      · simp only [hk, hpk]
        simp [hk, hpk]
        intro h
        exact absurd h.symm hpk

/-- C4: when the Schnorr equation check fails, the simulator verifier
returns `false` and hands back the registry state unchanged: no nonce is
consumed and no other registry field is mutated. -/
theorem verify_equation_failure_no_mutation (P : Params n) (m : List ℕ)
    (sig : Sig n) (st : RegState)
    (h : schnorrHolds P (stringToBytes32 m) sig = false) :
    verifySignature P m sig st = (false, st) := by
  unfold verifySignature verify_signature
  rw [h]
  simp

/-- Witness for C4: a concrete signature failing the equation leaves a
concrete registry untouched. -/
theorem verify_equation_failure_no_mutation_witness :
    verifySignature Pc [] ⟨2, 3, 4, 0⟩ ⟨0, []⟩ = (false, ⟨0, []⟩) :=
  verify_equation_failure_no_mutation Pc [] ⟨2, 3, 4, 0⟩ ⟨0, []⟩
    (by decide)

/-- C5: the simulator verifiers always terminate with a plain boolean:
a circuit success is reported as `true` with the new state, and every
circuit error (failed equation, consumed nonce) is caught and reported as
the single value `false` with the state untouched; no error reaches the
caller. -/
theorem verify_never_throws (P : Params n) (m : List ℕ) (sig : Sig n)
    (sc : SignedCredentialSubject n) (st : RegState) :
    ((∃ st1, verify_signature P (stringToBytes32 m) sig st = .ok st1 ∧
        verifySignature P m sig st = (true, st1)) ∨
      (∃ e, verify_signature P (stringToBytes32 m) sig st = .error e ∧
        verifySignature P m sig st = (false, st))) ∧
    ((∃ st1, verify_signature P (hashCredentialSubject P sc.subject)
          sc.signature st = .ok st1 ∧
        verifySignedCredential P sc st = (true, st1)) ∨
      (∃ e, verify_signature P (hashCredentialSubject P sc.subject)
          sc.signature st = .error e ∧
        verifySignedCredential P sc st = (false, st))) := by
  constructor
  · cases h : verify_signature P (stringToBytes32 m) sig st with
    | ok st1 =>
      exact .inl ⟨st1, rfl, by unfold verifySignature; rw [h]⟩
    | error e =>
      exact .inr ⟨e, rfl, by unfold verifySignature; rw [h]⟩
  · cases h : verify_signature P (hashCredentialSubject P sc.subject)
        sc.signature st with
    | ok st1 =>
      exact .inl ⟨st1, rfl, by unfold verifySignedCredential; rw [h]⟩
    | error e =>
      exact .inr ⟨e, rfl, by unfold verifySignedCredential; rw [h]⟩

/-- C6: the all-zero 32-byte secret key decodes to the scalar 0 and is
rejected with `InvalidKey`; the error carries no signature data and the
registry state is untouched, so no partial result is returned. -/
theorem zero_key_sign_rejected (P : Params n) (m : List ℕ)
    (st : RegState) :
    bytesToNat (List.replicate 32 0) = 0 ∧
    signMessage P m (bytesToNat (List.replicate 32 0)) st =
      .error .invalidKey ∧
    stepState P st (.signOp m (bytesToNat (List.replicate 32 0))) = st := by
  have h0 : bytesToNat (List.replicate 32 0) = 0 := by decide
  have hs : signMessage P m 0 st = .error .invalidKey := by
    unfold signMessage sign
    simp
  refine ⟨h0, by rw [h0]; exact hs, ?_⟩
  rw [h0]
  simp only [stepState, hs]

/-- C7: along any trace of sign and verify operations started from the
initial registry, the nonces of the successfully produced signatures are
exactly `0, 1, 2, ...`: starting at 0, each exactly one greater than the
previous, and never repeated. -/
theorem nonces_sequential_from_zero (P : Params n) (ops : List (Op n)) :
    signedNonces P ops initState =
      List.range (signedNonces P ops initState).length := by
  rw [List.range_eq_range']
  exact signedNonces_eq_range' P ops initState

/-- C8: the field encoder always returns exactly 32 bytes, right-padding
short inputs with zeros and truncating longer inputs to their first 32
bytes, so any two inputs agreeing on their first 32 bytes encode
identically. -/
theorem stringToBytes32_fixed_width (s t : List ℕ) :
    (stringToBytes32 s).length = 32 ∧
    (s.length ≤ 32 →
      stringToBytes32 s = s ++ List.replicate (32 - s.length) 0) ∧
    (32 < s.length → stringToBytes32 s = s.take 32) ∧
    (s.take 32 = t.take 32 → stringToBytes32 s = stringToBytes32 t) := by
  refine ⟨stringToBytes32_length s, ?_, ?_, ?_⟩
  · intro h
    unfold stringToBytes32
    rw [List.take_of_length_le h]
  · intro h
    unfold stringToBytes32
    rw [List.length_take]
    have hm : min 32 s.length = 32 := by omega
    rw [hm]
    simp
  · intro h
    unfold stringToBytes32
    rw [h]

/-- Witness for C8: padding of a 1-byte input, truncation of a 40-byte
input, and agreement of two inputs sharing their first 32 bytes. -/
theorem stringToBytes32_fixed_width_witness :
    stringToBytes32 [7] = [7] ++ List.replicate (32 - [7].length) 0 ∧
    stringToBytes32 (List.replicate 40 3) =
      (List.replicate 40 3).take 32 ∧
    stringToBytes32 (List.replicate 40 3) =
      stringToBytes32 (List.replicate 33 3) :=
  ⟨(stringToBytes32_fixed_width [7] []).2.1 (by decide),
    (stringToBytes32_fixed_width (List.replicate 40 3) []).2.2.1
      (by decide),
    (stringToBytes32_fixed_width (List.replicate 40 3)
      (List.replicate 33 3)).2.2.2 (by decide)⟩

/-- C9 counterexample: run from the fresh registry, the `part_002`
variant's `signCredentialSubject` performs two sign operations — a
discarded `signMessage` on the hex rendering of the digest, then a second
`sign` on the raw digest — so the registry counter advances to 2, not 1:
the call does not perform exactly one sign operation issuing exactly one
nonce, and the returned signature carries the second nonce. -/
theorem part002_signCredential_issues_two_nonces :
    part002SignCredentialSubject Pc ⟨[], [], [], [], 0⟩ 2 ⟨0, []⟩ =
      .ok (⟨⟨[], [], [], [], 0⟩, ⟨2, 3, 3, 1⟩, 1⟩, ⟨2, []⟩) ∧
    ((⟨2, []⟩ : RegState).nextNonce ≠
      (⟨0, []⟩ : RegState).nextNonce + 1) :=
  ⟨rfl, by decide⟩

/-- C9 (amended): in the `schnorr-simulator.ts` variant the credential
operations are exactly hash-then-sign and hash-then-verify:
`signCredentialSubject` agrees with the composition stated from the spec
and a success issues exactly one nonce, and `verifySignedCredential` is
the simulator verification applied to the subject's digest and the stored
signature; the `part_002` variant's `signCredentialSubject` instead
performs two sign operations per call, issuing two nonces and returning a
signature that carries the second. -/
theorem credential_ops_are_compositions (P : Params n)
    (c : CredentialSubject) (sk : ℕ) (st : RegState)
    (sc : SignedCredentialSubject n) (st1 : RegState) :
    signCredentialSubject P c sk st = specSignCredential P c sk st ∧
    verifySignedCredential P sc st =
      verifySignature P (hashCredentialSubject P sc.subject)
        sc.signature st ∧
    (signCredentialSubject P c sk st = .ok (sc, st1) →
      st1.nextNonce = st.nextNonce + 1 ∧
      sc.signature.nonce = st.nextNonce ∧ sc.subject = c) ∧
    (part002SignCredentialSubject P c sk st = .ok (sc, st1) →
      st1.nextNonce = st.nextNonce + 2 ∧
      sc.signature.nonce = st.nextNonce + 1) := by
  refine ⟨?_, ?_, ?_, ?_⟩
  · unfold signCredentialSubject specSignCredential hashCredentialSubject
    cases h : sign P (P.subjectHash c) sk st with
    | error e => rfl
    | ok p =>
      obtain ⟨sig, st2⟩ := p
      rfl
  · unfold verifySignedCredential verifySignature
    rw [stringToBytes32_of_length_eq (hashCredentialSubject P sc.subject)
      (P.subjectHash_len sc.subject)]
  · intro h
    unfold signCredentialSubject at h
    cases hs : sign P (hashCredentialSubject P c) sk st with
    | error e =>
      rw [hs] at h
      exact absurd h (by simp)
    | ok p =>
      obtain ⟨sig, st2⟩ := p
      rw [hs] at h
      simp only [Except.ok.injEq, Prod.mk.injEq] at h
      obtain ⟨hsc, hst1⟩ := h
      obtain ⟨-, -, -, -, hnv, hst⟩ := sign_ok_elim hs
      subst hst1
      rw [← hsc, hst]
      exact ⟨rfl, hnv, rfl⟩
  · intro h
    unfold part002SignCredentialSubject at h
    cases h1 : signMessage P (hex64 (hashCredentialSubject P c)) sk st with
    | error e =>
      rw [h1] at h
      exact absurd h (by simp)
    | ok p =>
      obtain ⟨s1, stA⟩ := p
      rw [h1] at h
      dsimp only at h
      obtain ⟨-, -, -, -, -, hstA⟩ := sign_ok_elim h1
      cases h2 : sign P (hashCredentialSubject P c) sk stA with
      | error e =>
        rw [h2] at h
        exact absurd h (by simp)
      | ok q =>
        obtain ⟨s2, stB⟩ := q
        rw [h2] at h
        dsimp only at h
        simp only [Except.ok.injEq, Prod.mk.injEq] at h
        obtain ⟨hsc, hst1⟩ := h
        obtain ⟨-, -, -, -, hnv2, hstB⟩ := sign_ok_elim h2
        subst hst1
        refine ⟨?_, ?_⟩
        · rw [hstB, hstA]
        · rw [← hsc]
          show s2.nonce = st.nextNonce + 1
          rw [hnv2, hstA]

/-- Witness for C9: from the fresh registry, the simulator variant signs
a concrete credential issuing nonce 0 and advancing the counter to 1,
while the `part_002` variant advances the counter to 2 and returns a
signature carrying nonce 1. -/
theorem credential_ops_are_compositions_witness :
    (({ nextNonce := 1, consumed := [] } : RegState).nextNonce =
        ({ nextNonce := 0, consumed := [] } : RegState).nextNonce + 1 ∧
      (⟨⟨[], [], [], [], 0⟩, ⟨2, 2, 0, 0⟩, 0⟩ :
          SignedCredentialSubject 5).signature.nonce =
        ({ nextNonce := 0, consumed := [] } : RegState).nextNonce ∧
      (⟨⟨[], [], [], [], 0⟩, ⟨2, 2, 0, 0⟩, 0⟩ :
          SignedCredentialSubject 5).subject = ⟨[], [], [], [], 0⟩) ∧
    (({ nextNonce := 2, consumed := [] } : RegState).nextNonce =
        ({ nextNonce := 0, consumed := [] } : RegState).nextNonce + 2 ∧
      (⟨⟨[], [], [], [], 0⟩, ⟨2, 3, 3, 1⟩, 1⟩ :
          SignedCredentialSubject 5).signature.nonce =
        ({ nextNonce := 0, consumed := [] } : RegState).nextNonce + 1) :=
  ⟨(credential_ops_are_compositions Pc ⟨[], [], [], [], 0⟩ 2 ⟨0, []⟩
      ⟨⟨[], [], [], [], 0⟩, ⟨2, 2, 0, 0⟩, 0⟩ ⟨1, []⟩).2.2.1 rfl,
    (credential_ops_are_compositions Pc ⟨[], [], [], [], 0⟩ 2 ⟨0, []⟩
      ⟨⟨[], [], [], [], 0⟩, ⟨2, 3, 3, 1⟩, 1⟩ ⟨2, []⟩).2.2.2 rfl⟩

/-- C10: the `withPublicKey` verifiers discard the signature's embedded
`pk` and verify against the explicit public-key argument, so two
signatures differing only in the embedded key verify identically under
these operations. -/
theorem verifyWithPublicKey_ignores_embedded_pk (P : Params n)
    (m : List ℕ) (sig1 sig2 : Sig n) (publicKey : ZMod n)
    (sc1 sc2 : SignedCredentialSubject n) (st : RegState)
    (hR : sig1.R = sig2.R) (hs : sig1.s = sig2.s)
    (hn : sig1.nonce = sig2.nonce) :
    verifySignatureWithPublicKey P m sig1 publicKey st =
      verifySignatureWithPublicKey P m sig2 publicKey st ∧
    (sc1.subject = sc2.subject → sc1.signature.R = sc2.signature.R →
      sc1.signature.s = sc2.signature.s →
      sc1.signature.nonce = sc2.signature.nonce →
      verifySignedCredentialWithPublicKey P sc1 publicKey st =
        verifySignedCredentialWithPublicKey P sc2 publicKey st) := by
  constructor
  · unfold verifySignatureWithPublicKey
    rw [hR, hs, hn]
  · intro h1 h2 h3 h4
    unfold verifySignedCredentialWithPublicKey
    rw [h1, h2, h3, h4]

/-- Witness for C10: two concrete signatures differing only in the
embedded key verify identically under both wrappers. -/
theorem verifyWithPublicKey_ignores_embedded_pk_witness :
    verifySignatureWithPublicKey Pc [] ⟨0, 3, 3, 0⟩ 2 ⟨0, []⟩ =
      verifySignatureWithPublicKey Pc [] ⟨4, 3, 3, 0⟩ 2 ⟨0, []⟩ ∧
    verifySignedCredentialWithPublicKey Pc
        ⟨⟨[], [], [], [], 0⟩, ⟨0, 3, 3, 0⟩, 0⟩ 2 ⟨0, []⟩ =
      verifySignedCredentialWithPublicKey Pc
        ⟨⟨[], [], [], [], 0⟩, ⟨4, 3, 3, 0⟩, 0⟩ 2 ⟨0, []⟩ :=
  ⟨(verifyWithPublicKey_ignores_embedded_pk Pc [] ⟨0, 3, 3, 0⟩
      ⟨4, 3, 3, 0⟩ 2 ⟨⟨[], [], [], [], 0⟩, ⟨0, 3, 3, 0⟩, 0⟩
      ⟨⟨[], [], [], [], 0⟩, ⟨4, 3, 3, 0⟩, 0⟩ ⟨0, []⟩ rfl rfl rfl).1,
    (verifyWithPublicKey_ignores_embedded_pk Pc [] ⟨0, 3, 3, 0⟩
      ⟨4, 3, 3, 0⟩ 2 ⟨⟨[], [], [], [], 0⟩, ⟨0, 3, 3, 0⟩, 0⟩
      ⟨⟨[], [], [], [], 0⟩, ⟨4, 3, 3, 0⟩, 0⟩ ⟨0, []⟩ rfl rfl rfl).2
      rfl rfl rfl rfl⟩

end Schnorr
